import Mathlib

/-!
Verification of the BLE power-control session protocol implemented by the
`BluetoothWorker` classes of `main.py` and `xdjkgui.py`.

The code is embedded shallowly:

* Python strings become `List Char` (`Str` below); `str.split(sep)` for a
  one-character separator becomes `splitOnChar`, which reproduces Python's
  semantics exactly (splitting on every occurrence, keeping empty pieces,
  and returning `[""]` on the empty string).
* Byte payloads become `List Nat`; `bytes.decode("ascii")` becomes
  `asciiDecode`, which fails on any byte `≥ 128`.
* Python list assignment `xs[i] = v` becomes `listSet`, which fails
  (models `IndexError`) when the index is out of range.
* `bytearray.fromhex` becomes `fromhex`, reproducing CPython's (3.7 and
  later) behaviour: ASCII whitespace is skipped between byte pairs, every
  byte is exactly two adjacent hex digits, anything else raises
  `ValueError` (here `none`).
* The I/O environment of a run (scan results, GATT attributes, the bytes
  of the characteristic, HTTP responses) is an explicit `Env` record, and
  each worker pipeline is a pure function of it.

The two program variants are embedded separately in namespaces `Main`
(for `main.py`) and `Gui` (for `xdjkgui.py`).
-/

/-- Python strings, modelled as their character sequence. -/
abbrev Str := List Char

/-- Python's `s.split(sep)` for a single-character separator `sep`:
splits on every occurrence, keeps empty pieces, and yields `[""]`
for the empty string. -/
def splitOnChar (sep : Char) : Str → List Str
  | [] => [[]]
  | c :: rest =>
    match splitOnChar sep rest with
    | [] => [[]]
    | s :: ss => if c = sep then [] :: s :: ss else (c :: s) :: ss

/-- `bytes.decode("ascii")`: succeeds iff every byte is `< 128`. -/
def asciiDecode : List Nat → Option Str
  | [] => some []
  | b :: rest =>
    if b < 128 then (asciiDecode rest).map (Char.ofNat b :: ·) else none

/-- Python list assignment `xs[i] = v`: fails (raises `IndexError`) when
`i` is out of range, otherwise replaces the element. -/
def listSet {α : Type} : List α → Nat → α → Option (List α)
  | [], _, _ => none
  | _ :: xs, 0, v => some (v :: xs)
  | x :: xs, n + 1, v => (listSet xs n v).map (x :: ·)

/-- Hex digit value, exactly the digits CPython's `fromhex` accepts. -/
def hexVal (c : Char) : Option Nat :=
  if '0' ≤ c ∧ c ≤ '9' then some (c.toNat - 48)
  else if 'a' ≤ c ∧ c ≤ 'f' then some (c.toNat - 87)
  else if 'A' ≤ c ∧ c ≤ 'F' then some (c.toNat - 55)
  else none

/-- `c` is a hexadecimal digit character. -/
def hexDigit (c : Char) : Bool := (hexVal c).isSome

/-- CPython's ASCII whitespace test (`Py_ISSPACE`): space, tab, line
feed, vertical tab, form feed, carriage return. -/
def asciiSpace (c : Char) : Bool :=
  c == ' ' || c == '\t' || c == '\n' || c == '\x0b' || c == '\x0c' || c == '\r'

/-- `bytearray.fromhex` (CPython 3.7 and later): ASCII whitespace is
skipped between byte pairs, each byte is two adjacent hex digits; an
odd trailing digit, whitespace inside a pair, or any other character
raises `ValueError` (here `none`). -/
def fromhex : Str → Option (List Nat)
  | [] => some []
  | c :: rest =>
    if asciiSpace c then fromhex rest
    else
      match hexVal c, rest with
      | some h1, c2 :: rest2 =>
        match hexVal c2 with
        | some h2 => (fromhex rest2).map ((16 * h1 + h2) :: ·)
        | none => none
      | _, _ => none

/-- The bytes encoded by an even-length string of hex digits, two digits
per byte (used to state what `fromhex` returns on clean input). -/
def pairBytes : Str → List Nat
  | c1 :: c2 :: rest => (16 * (hexVal c1).getD 0 + (hexVal c2).getD 0) :: pairBytes rest
  | _ => []

/-- The text after the first `:` of a string (everything, including any
further colons); the whole string shrinks to `[]` if it has no colon. -/
def afterFirstColon : Str → Str
  | [] => []
  | c :: rest => if c = ':' then rest else afterFirstColon rest

/-- The value part `key_value[1]` of a split segment (defaulting to `[]`,
used only under the hypothesis that the part exists). -/
def valueOf (seg : Str) : Str := (splitOnChar ':' seg).getD 1 []

/-- Whether a notification segment writes its slot: Python's
`len(key_value) > 1` after `item.split(":")`. -/
def writesSlot (seg : Str) : Bool :=
  match splitOnChar ':' seg with
  | _ :: _ :: _ => true
  | _ => false

/-- The ten-character default fill of a notification slot. -/
def defaultSlot : Str := ['0', '0', '0', '0', '0', '0', '0', '0', '0', '0']

/-- The parsing loop of `notification_handler` (`main.py` lines 172–175,
verbatim identical in `xdjkgui.py` lines 321–324): enumerate the
segments, and for every segment whose split has more than one part
assign `parsed_data[i] = key_value[1]`; the assignment raises
`IndexError` (`none`) when `i` is out of range. -/
def notifLoop : List Str → Nat → List Str → Option (List Str)
  | slots, _, [] => some slots
  | slots, i, seg :: rest =>
    match splitOnChar ':' seg with
    | _ :: v :: _ =>
      match listSet slots i v with
      | some slots2 => notifLoop slots2 (i + 1) rest
      | none => none
    | _ => notifLoop slots (i + 1) rest

/-- Exception-free rerun of `notifLoop` used to describe its successful
results: the same per-segment assignments, with Python's failing
assignment replaced by Lean's total `List.set`. -/
def applySegs : List Str → Nat → List Str → List Str
  | slots, _, [] => slots
  | slots, i, seg :: rest =>
    match splitOnChar ':' seg with
    | _ :: v :: _ => applySegs (slots.set i v) (i + 1) rest
    | _ => applySegs slots (i + 1) rest

/-- Reference definition of the notification record, following the
spec's words (§3, §4.1): a sparse array of 50 positional slots,
default-filled with the ten-zero string, where a slot holds the value
written by the like-indexed segment when that segment's split on `:`
has more than one part, and keeps the default otherwise. -/
def notificationSpec (segs : List Str) : List Str :=
  (List.range 50).map fun i =>
    match segs.get? i with
    | some seg =>
      match splitOnChar ':' seg with
      | _ :: v :: _ => v
      | _ => defaultSlot
    | none => defaultSlot

/-- Errors of the telemetry decoder (spec §7: `DecodeError`). -/
inductive DecodeError
  | FieldCountError
  | FieldFormatError
  deriving DecidableEq

/-- Result of decoding one notification payload. -/
inductive NotifDecode
  | skip
  | fail
  | record (slots : List Str)
  deriving DecidableEq

/-- The operating mode (spec §3 `OperatingMode`): `restore` is the
`mode == "1"` branch, `initMode` the device-initialization branch. -/
inductive Mode
  | restore
  | initMode
  deriving DecidableEq

/-- A scanned BLE advertisement: advertised name and address. -/
structure BleDevice where
  name : Str
  address : Str
  deriving DecidableEq

/-- An HTTP response from the exchange service. -/
structure HttpResponse where
  status : Nat
  text : Str
  deriving DecidableEq

/-- The I/O environment of one run.  `none` in an `Option` field means the
corresponding transport operation raised an exception.  `writeOk` covers
the whole write session (connect, subscribe, write, settle window): when
it is `false` the session raises before the write completes. -/
structure Env where
  scanResult : Option (List BleDevice)
  svcPresent : Bool
  charPresent : Bool
  charReadable : Bool
  readValue : Option (List Nat)
  getResp : Option HttpResponse
  initResp : Option HttpResponse
  writeOk : Bool

/-- The distinct log messages emitted by the two variants; messages with
the same wording in both files share a constructor. -/
inductive Log
  | separator
  | searching
  | deviceFound (name : Str)
  | deviceNotFound
  | needBluetooth
  | gettingInfo
  | infoFailedL
  | gettingRestoreData
  | gettingInitData
  | dataFailedL
  | unauthorized
  | rateLimited
  | startingPower
  | connectError
  | serviceNotFound
  | charNotFound
  | notReadable
  | formatError
  | itemFormatError (item : Str)
  | readExc
  | deviceVersion (v : Str)
  | parseError
  deriving DecidableEq

/-- Terminal message of `main.py`'s `finished_signal`. -/
inductive FinalMsg
  | notFound
  | infoFailed
  | dataFailed
  | opFailed
  | done
  deriving DecidableEq

/-- Observable outcome of one worker run: terminal success flag, the byte
arrays actually written to the characteristic, and the emitted logs. -/
structure RunResult where
  success : Bool
  message : FinalMsg
  writes : List (List Nat)
  logs : List Log
  deriving DecidableEq

/-- Outcome of `connect_and_write`. -/
inductive WriteOutcome
  | wrote (bytes : List Nat)
  | transportError
  | hexError
  deriving DecidableEq

/-- Options passed to the `BleakClient` constructor: connect timeout in
seconds and the `winrt` `use_cached_services` flag; `none` means the
option is not passed (library default). -/
structure ConnectOptions where
  timeout : Option Nat
  winrtUseCachedServices : Option Bool
  deriving DecidableEq

/-- Effects of one call to a `notification_handler`: logs emitted, the
`info` value uploaded to `apideviceinfo` (if the post completed), and
whether the handler let an exception escape. -/
structure NotifEffect where
  logs : List Log
  upload : Option Str
  raised : Bool
  deriving DecidableEq

namespace Main

/-- One segment of the telemetry read (`main.py` lines 110–115):
`key_value = item.split(":")`, accepted only when it has exactly two
parts, in which case the value part `key_value[1]` is kept. -/
def parseSegment (seg : Str) : Option Str :=
  match splitOnChar ':' seg with
  | [_, v] => some v
  | _ => none

/-- The per-segment loop of `read_characteristic` (`main.py` lines
109–115): collect the value parts in order, failing on the first
segment that does not split into exactly two parts. -/
def parseSegments : List Str → Option (List Str)
  | [] => some []
  | s :: rest =>
    match parseSegment s with
    | some v => (parseSegments rest).map (v :: ·)
    | none => none

/-- The telemetry decoding of `BluetoothWorker.read_characteristic`
(`main.py` lines 105–116): split the raw text on `","`, require exactly
13 segments, then require each segment to split on `":"` into exactly
two parts, keeping the value parts in order. -/
def decodeTelemetry (raw : Str) : Except DecodeError (List Str) :=
  let segs := splitOnChar ',' raw
  if segs.length = 13 then
    match parseSegments segs with
    | some vals => .ok vals
    | none => .error .FieldFormatError
  else
    .error .FieldCountError

/-- `BluetoothWorker.scan_devices` (`main.py` lines 72–82): return the
address of the first scanned device whose name equals the target,
logging the find; return `None` with no log both when no device matches
and when the scanner raises. -/
def scan_devices (name : Str) (env : Env) : Option Str × List Log :=
  match env.scanResult with
  | none => (none, [])
  | some devs =>
    match devs.find? (fun d => d.name == name) with
    | some d => (some d.address, [.deviceFound d.name])
    | none => (none, [])

/-- Options of `BleakClient(self.device_address)` in `main.py`: no
timeout argument, no `winrt` argument. -/
def connectOptions : ConnectOptions := ⟨none, none⟩

/-- `BluetoothWorker.read_characteristic` (`main.py` lines 84–120):
resolve service and characteristic, require the `read` capability, read
and ASCII-decode the value, then decode the telemetry; every failure
(including a raised exception) yields `(None, None)` and no log. -/
def read_characteristic (env : Env) : Option (List Str × Str) × List Log :=
  if env.svcPresent then
    if env.charPresent then
      if env.charReadable then
        match env.readValue with
        | some bytes =>
          match asciiDecode bytes with
          | some raw =>
            match decodeTelemetry raw with
            | .ok vals => (some (vals, raw), [])
            | .error _ => (none, [])
          | none => (none, [])
        | none => (none, [])
      else (none, [])
    else (none, [])
  else (none, [])

/-- `BluetoothWorker.get_data` (`main.py` lines 122–139): `403` logs the
unauthorized message and returns `None`; `200` returns the body; every
other status, and a raised request, return `None`. -/
def get_data (env : Env) : Option Str × List Log :=
  match env.getResp with
  | none => (none, [])
  | some r =>
    if r.status = 403 then (none, [.unauthorized])
    else if r.status = 200 then (some r.text, [])
    else (none, [])

/-- `BluetoothWorker.init_data` (`main.py` lines 141–153): same response
handling as `get_data`, against `apiinitdata`. -/
def init_data (env : Env) : Option Str × List Log :=
  match env.initResp with
  | none => (none, [])
  | some r =>
    if r.status = 403 then (none, [.unauthorized])
    else if r.status = 200 then (some r.text, [])
    else (none, [])

/-- `BluetoothWorker.connect_and_write` (`main.py` lines 155–163):
`bytearray.fromhex` runs before the `try`, so a hex failure propagates;
a transport failure is re-raised; on success the bytes are written and
the 2-second settle window held. -/
def connect_and_write (data : Str) (env : Env) : WriteOutcome × List Log :=
  match fromhex data with
  | none => (.hexError, [])
  | some bytes =>
    if env.writeOk then (.wrote bytes, []) else (.transportError, [])

/-- The tail of `BluetoothWorker.run` shared by both modes (`main.py`
lines 58–67): a falsy result (`None` or the empty string) terminates
with the data failure message, otherwise the command is written; a hex
or transport failure propagates to the generic exception handler. -/
def writePhase (result : Option Str) (env : Env) (logs : List Log) : RunResult :=
  match result with
  | none => ⟨false, .dataFailed, [], logs⟩
  | some txt =>
    if txt = [] then ⟨false, .dataFailed, [], logs⟩
    else
      match connect_and_write txt env with
      | (.wrote bytes, wlogs) =>
        ⟨true, .done, [bytes], logs ++ [Log.startingPower] ++ wlogs⟩
      | (.transportError, wlogs) =>
        ⟨false, .opFailed, [], logs ++ [Log.startingPower] ++ wlogs⟩
      | (.hexError, wlogs) =>
        ⟨false, .opFailed, [], logs ++ [Log.startingPower] ++ wlogs⟩

/-- `BluetoothWorker.run` (`main.py` lines 28–70): scan, mode branch
(read + `get_data` for restore, `init_data` otherwise), then write; the
first failing step terminates the run with its failure message. -/
def run (mode : Mode) (name : Str) (env : Env) : RunResult :=
  match scan_devices name env with
  | (none, scanLogs) => ⟨false, .notFound, [], Log.searching :: scanLogs⟩
  | (some _, scanLogs) =>
    match mode with
    | .restore =>
      match read_characteristic env with
      | (none, readLogs) =>
        ⟨false, .infoFailed, [],
          Log.searching :: scanLogs ++ [Log.gettingInfo] ++ readLogs⟩
      | (some _, readLogs) =>
        let (dataRes, dataLogs) := get_data env
        writePhase dataRes env
          (Log.searching :: scanLogs ++ [Log.gettingInfo] ++ readLogs
            ++ [Log.gettingRestoreData] ++ dataLogs)
    | .initMode =>
      let (dataRes, dataLogs) := init_data env
      writePhase dataRes env
        (Log.searching :: scanLogs ++ [Log.gettingInitData] ++ dataLogs)

/-- The notification decoding of `notification_handler` (`main.py` lines
167–175): a payload of at most 40 characters is skipped; otherwise the
comma segments are folded into the fixed 50-slot array, and an
out-of-range assignment makes the whole decode fail (`IndexError`). -/
def decodeNotification (raw : Str) : NotifDecode :=
  if raw.length > 40 then
    match notifLoop (List.replicate 50 defaultSlot) 0 (splitOnChar ',' raw) with
    | some slots => .record slots
    | none => .fail
  else .skip

/-- `BluetoothWorker.notification_handler` (`main.py` lines 165–185):
decode the bytes, skip short payloads, parse the rest, upload slot 18
and log it; any exception (bad ASCII, `IndexError`, a failed upload) is
caught, logged, and not re-raised.  `uploadOk` says whether the
`apideviceinfo` post succeeds. -/
def notification_handler (uploadOk : Bool) (data : List Nat) : NotifEffect :=
  match asciiDecode data with
  | none => ⟨[.parseError], none, false⟩
  | some raw =>
    match decodeNotification raw with
    | .skip => ⟨[], none, false⟩
    | .fail => ⟨[.parseError], none, false⟩
    | .record slots =>
      if uploadOk then
        ⟨[.deviceVersion (slots.getD 18 [])], some (slots.getD 18 []), false⟩
      else ⟨[.parseError], none, false⟩

end Main

namespace Gui

/-- One segment of the telemetry read (`xdjkgui.py` lines 199–204),
line-for-line the same parsing as in `main.py`. -/
def parseSegment (seg : Str) : Option Str :=
  match splitOnChar ':' seg with
  | [_, v] => some v
  | _ => none

/-- The per-segment loop of `read_characteristic` (`xdjkgui.py` lines
197–204). -/
def parseSegments : List Str → Option (List Str)
  | [] => some []
  | s :: rest =>
    match parseSegment s with
    | some v => (parseSegments rest).map (v :: ·)
    | none => none

/-- The telemetry decoding of `BluetoothWorker.read_characteristic`
(`xdjkgui.py` lines 191–205). -/
def decodeTelemetry (raw : Str) : Except DecodeError (List Str) :=
  let segs := splitOnChar ',' raw
  if segs.length = 13 then
    match parseSegments segs with
    | some vals => .ok vals
    | none => .error .FieldFormatError
  else
    .error .FieldCountError

/-- `BluetoothWorker.scan_devices` (`xdjkgui.py` lines 127–147): same
matching as `main.py`, but the no-match and raised-scan failures emit
distinct log messages before returning `None`. -/
def scan_devices (name : Str) (env : Env) : Option Str × List Log :=
  match env.scanResult with
  | none => (none, [.needBluetooth])
  | some devs =>
    match devs.find? (fun d => d.name == name) with
    | some d => (some d.address, [.deviceFound d.name])
    | none => (none, [.deviceNotFound])

/-- Options of the `BleakClient` constructor in `xdjkgui.py` (lines
158–162 and 286–290): a 30-second timeout and
`winrt=dict(use_cached_services=False)`. -/
def connectOptions : ConnectOptions := ⟨some 30, some false⟩

/-- `BluetoothWorker.read_characteristic` (`xdjkgui.py` lines 149–211):
same result as `main.py`, with a log message on each failure path. -/
def read_characteristic (env : Env) : Option (List Str × Str) × List Log :=
  if env.svcPresent then
    if env.charPresent then
      if env.charReadable then
        match env.readValue with
        | some bytes =>
          match asciiDecode bytes with
          | some raw =>
            match decodeTelemetry raw with
            | .ok vals => (some (vals, raw), [])
            | .error .FieldCountError => (none, [.formatError])
            | .error .FieldFormatError => (none, [.itemFormatError raw])
          | none => (none, [.readExc])
        | none => (none, [.readExc])
      else (none, [.notReadable])
    else (none, [.charNotFound])
  else (none, [.serviceNotFound])

/-- `BluetoothWorker.get_data` (`xdjkgui.py` lines 213–246): like
`main.py`, with an additional dedicated log for status `429`; the
returned value is the same in every case. -/
def get_data (env : Env) : Option Str × List Log :=
  match env.getResp with
  | none => (none, [])
  | some r =>
    if r.status = 403 then (none, [.unauthorized])
    else if r.status = 429 then (none, [.rateLimited])
    else if r.status = 200 then (some r.text, [])
    else (none, [])

/-- `BluetoothWorker.init_data` (`xdjkgui.py` lines 248–272). -/
def init_data (env : Env) : Option Str × List Log :=
  match env.initResp with
  | none => (none, [])
  | some r =>
    if r.status = 403 then (none, [.unauthorized])
    else if r.status = 429 then (none, [.rateLimited])
    else if r.status = 200 then (some r.text, [])
    else (none, [])

/-- `BluetoothWorker.connect_and_write` (`xdjkgui.py` lines 274–301):
as in `main.py`, but a transport failure logs a message before
re-raising. -/
def connect_and_write (data : Str) (env : Env) : WriteOutcome × List Log :=
  match fromhex data with
  | none => (.hexError, [])
  | some bytes =>
    if env.writeOk then (.wrote bytes, []) else (.transportError, [.connectError])

/-- Result of a `xdjkgui.py` run: its `finished_signal` carries only the
success flag, no message. -/
structure GRunResult where
  success : Bool
  writes : List (List Nat)
  logs : List Log
  deriving DecidableEq

/-- The shared tail of `BluetoothWorker.run` (`xdjkgui.py` lines
110–122): a falsy result logs the data failure and terminates,
otherwise the command is written. -/
def writePhase (result : Option Str) (env : Env) (logs : List Log) : GRunResult :=
  match result with
  | none => ⟨false, [], logs ++ [Log.dataFailedL]⟩
  | some txt =>
    if txt = [] then ⟨false, [], logs ++ [Log.dataFailedL]⟩
    else
      match connect_and_write txt env with
      | (.wrote bytes, wlogs) =>
        ⟨true, [bytes], logs ++ [Log.startingPower] ++ wlogs⟩
      | (.transportError, wlogs) =>
        ⟨false, [], logs ++ [Log.startingPower] ++ wlogs⟩
      | (.hexError, wlogs) =>
        ⟨false, [], logs ++ [Log.startingPower] ++ wlogs⟩

/-- `BluetoothWorker.run` (`xdjkgui.py` lines 66–125): the same pipeline
as `main.py` with a leading separator log and failure messages emitted
as logs instead of a terminal message. -/
def run (mode : Mode) (name : Str) (env : Env) : GRunResult :=
  match scan_devices name env with
  | (none, scanLogs) => ⟨false, [], Log.separator :: Log.searching :: scanLogs⟩
  | (some _, scanLogs) =>
    match mode with
    | .restore =>
      match read_characteristic env with
      | (none, readLogs) =>
        ⟨false, [],
          Log.separator :: Log.searching :: scanLogs ++ [Log.gettingInfo]
            ++ readLogs ++ [Log.infoFailedL]⟩
      | (some _, readLogs) =>
        let (dataRes, dataLogs) := get_data env
        writePhase dataRes env
          (Log.separator :: Log.searching :: scanLogs ++ [Log.gettingInfo]
            ++ readLogs ++ [Log.gettingRestoreData] ++ dataLogs)
    | .initMode =>
      let (dataRes, dataLogs) := init_data env
      writePhase dataRes env
        (Log.separator :: Log.searching :: scanLogs
          ++ [Log.gettingInitData] ++ dataLogs)

/-- The notification decoding of `notification_handler` (`xdjkgui.py`
lines 313–324), line-for-line the same parsing as in `main.py`. -/
def decodeNotification (raw : Str) : NotifDecode :=
  if raw.length > 40 then
    match notifLoop (List.replicate 50 defaultSlot) 0 (splitOnChar ',' raw) with
    | some slots => .record slots
    | none => .fail
  else .skip

/-- `BluetoothWorker.notification_handler` (`xdjkgui.py` lines 303–336):
same handling as `main.py`, except that after logging a failure the
handler re-raises the exception (`raise` on line 336). -/
def notification_handler (uploadOk : Bool) (data : List Nat) : NotifEffect :=
  match asciiDecode data with
  | none => ⟨[.parseError], none, true⟩
  | some raw =>
    match decodeNotification raw with
    | .skip => ⟨[], none, false⟩
    | .fail => ⟨[.parseError], none, true⟩
    | .record slots =>
      if uploadOk then
        ⟨[.deviceVersion (slots.getD 18 [])], some (slots.getD 18 []), false⟩
      else ⟨[.parseError], none, true⟩

end Gui

/-- A base environment for concrete instantiations: everything present
and succeeding, every transport value absent. -/
def baseEnv : Env :=
  { scanResult := none, svcPresent := true, charPresent := true,
    charReadable := true, readValue := none, getResp := none,
    initResp := none, writeOk := true }

/-! ## Helper lemmas about the language-level primitives -/

/-- `split` never returns an empty list of pieces. -/
theorem splitOnChar_ne_nil (sep : Char) (s : Str) : splitOnChar sep s ≠ [] := by
  cases s with
  | nil => simp [splitOnChar]
  | cons c rest =>
    simp only [splitOnChar]
    cases h : splitOnChar sep rest with
    | nil => simp
    | cons s ss =>
      by_cases hc : c = sep <;> simp [hc]

/-- Splitting a separator-free string yields the string as its only piece. -/
theorem splitOnChar_of_not_mem (sep : Char) (s : Str) (h : sep ∉ s) :
    splitOnChar sep s = [s] := by
  induction s with
  | nil => rfl
  | cons c rest ih =>
    simp only [List.mem_cons, not_or] at h
    simp [splitOnChar, ih h.2, mt Eq.symm h.1]

/-- Splitting past a separator-free prefix: the prefix becomes the first
piece and the rest is split recursively. -/
theorem splitOnChar_append (sep : Char) (a t : Str) (h : sep ∉ a) :
    splitOnChar sep (a ++ sep :: t) = a :: splitOnChar sep t := by
  induction a with
  | nil =>
    simp only [List.nil_append, splitOnChar]
    cases ht : splitOnChar sep t with
    | nil => exact absurd ht (splitOnChar_ne_nil sep t)
    | cons s ss => simp
  | cons c rest ih =>
    simp only [List.mem_cons, not_or] at h
    simp only [List.cons_append, splitOnChar, List.append_eq]
    rw [ih h.2]
    simp [mt Eq.symm h.1]

/-- The number of pieces is the number of separators plus one. -/
theorem splitOnChar_length (sep : Char) (s : Str) :
    (splitOnChar sep s).length = s.count sep + 1 := by
  induction s with
  | nil => simp [splitOnChar]
  | cons c rest ih =>
    simp only [splitOnChar]
    cases h : splitOnChar sep rest with
    | nil => exact absurd h (splitOnChar_ne_nil sep rest)
    | cons p ps =>
      rw [h] at ih
      by_cases hc : c = sep <;>
        simp_all [List.count_cons, Nat.add_comm, Nat.add_left_comm]

/-- The first piece of a split is the separator-free prefix. -/
theorem splitOnChar_getD_zero (sep : Char) (s : Str) :
    (splitOnChar sep s).getD 0 [] = s.takeWhile (· != sep) := by
  induction s with
  | nil => simp [splitOnChar, List.takeWhile]
  | cons c rest ih =>
    cases h : splitOnChar sep rest with
    | nil => exact absurd h (splitOnChar_ne_nil sep rest)
    | cons p ps =>
      rw [h] at ih
      simp only [List.getD_cons_zero] at ih
      by_cases hc : c = sep
      · subst hc
        simp [splitOnChar, h, List.takeWhile]
      · have hb : (c != sep) = true := by simp [bne_iff_ne, hc]
        simp only [splitOnChar, h, if_neg hc, List.getD_cons_zero,
          List.takeWhile, hb]
        simp [ih]

/-- The second piece of a colon split is the text between the first
colon and the second colon (or the end of the string). -/
theorem splitColon_getD_one (s : Str) (h : ':' ∈ s) :
    (splitOnChar ':' s).getD 1 [] = (afterFirstColon s).takeWhile (· != ':') := by
  induction s with
  | nil => cases h
  | cons c rest ih =>
    cases hs : splitOnChar ':' rest with
    | nil => exact absurd hs (splitOnChar_ne_nil ':' rest)
    | cons p ps =>
      by_cases hc : c = ':'
      · have h0 := splitOnChar_getD_zero ':' rest
        rw [hs] at h0
        simp only [List.getD_cons_zero] at h0
        simp only [splitOnChar, hs, afterFirstColon]
        simp [hc, h0]
      · have hmem : ':' ∈ rest := by
          rcases List.mem_cons.mp h with h1 | h1
          · exact absurd h1.symm hc
          · exact h1
        have hrec := ih hmem
        rw [hs] at hrec
        simp only [List.getD_cons_succ] at hrec
        simp only [splitOnChar, hs, afterFirstColon]
        simp only [hc, if_false, List.getD_cons_succ]
        simpa [List.getD] using hrec

/-- `parseSegment` keeps exactly the segments whose colon split has two
parts, returning the value part. -/
theorem parseSegment_eq (s : Str) :
    Main.parseSegment s =
      if (splitOnChar ':' s).length = 2 then some (valueOf s) else none := by
  rcases h : splitOnChar ':' s with - | ⟨a, - | ⟨b, - | ⟨c, t3⟩⟩⟩ <;>
    simp [Main.parseSegment, valueOf, h]

/-- When every segment splits into two parts, the telemetry loop returns
the value parts in order. -/
theorem parseSegments_ok (segs : List Str)
    (h : ∀ s ∈ segs, (splitOnChar ':' s).length = 2) :
    Main.parseSegments segs = some (segs.map valueOf) := by
  induction segs with
  | nil => rfl
  | cons a t ih =>
    have ha := h a (by simp)
    have ht := ih (fun s hs => h s (by simp [hs]))
    simp [Main.parseSegments, parseSegment_eq, ha, ht]

/-- A single segment whose split does not have two parts makes the
telemetry loop fail. -/
theorem parseSegments_none (segs : List Str)
    (h : ∃ s ∈ segs, (splitOnChar ':' s).length ≠ 2) :
    Main.parseSegments segs = none := by
  induction segs with
  | nil => simp at h
  | cons a t ih =>
    rcases h with ⟨s, hs, hbad⟩
    rcases List.mem_cons.mp hs with rfl | hmem
    · simp [Main.parseSegments, parseSegment_eq, hbad]
    · by_cases h2 : (splitOnChar ':' a).length = 2
      · simp [Main.parseSegments, parseSegment_eq, h2, ih ⟨s, hmem, hbad⟩]
      · simp [Main.parseSegments, parseSegment_eq, h2]

/-- Python list assignment succeeds exactly in range, as `List.set`. -/
theorem listSet_eq {α : Type} (xs : List α) (n : Nat) (v : α) :
    listSet xs n v = if n < xs.length then some (xs.set n v) else none := by
  induction xs generalizing n with
  | nil => simp [listSet]
  | cons x xs ih =>
    cases n with
    | zero => simp [listSet, List.set]
    | succ n =>
      simp only [listSet, ih, List.length_cons]
      by_cases h : n < xs.length
      · simp [h, Nat.succ_lt_succ h, List.set]
      · simp [h, fun hlt => h (Nat.lt_of_succ_lt_succ hlt)]

/-- Crossing the first colon removes exactly one colon. -/
theorem count_afterFirstColon (s : Str) (h : ':' ∈ s) :
    s.count ':' = (afterFirstColon s).count ':' + 1 := by
  induction s with
  | nil => cases h
  | cons c rest ih =>
    by_cases hc : c = ':'
    · subst hc
      simp [afterFirstColon, List.count_cons]
    · have hmem : ':' ∈ rest := by
        rcases List.mem_cons.mp h with h1 | h1
        · exact absurd h1.symm hc
        · exact h1
      have hb : ((':' : Char) == c) = false := by
        simp [beq_iff_eq, mt Eq.symm hc]
      simp [afterFirstColon, hc, List.count_cons, ih hmem, hb]

/-- `takeWhile (· != ':')` keeps a colon-free string whole. -/
theorem takeWhile_colon_free (xs : Str) (h : ':' ∉ xs) :
    xs.takeWhile (· != ':') = xs := by
  induction xs with
  | nil => rfl
  | cons c rest ih =>
    simp only [List.mem_cons, not_or] at h
    have hb : (c != ':') = true := by simp [bne_iff_ne, mt Eq.symm h.1]
    simp [List.takeWhile, hb, ih h.2]

/-- A segment with exactly one colon has the whole text after it as its
value part. -/
theorem valueOf_single_colon (s : Str) (h1 : s.count ':' = 1) :
    valueOf s = afterFirstColon s := by
  have hmem : ':' ∈ s := by
    have : 0 < s.count ':' := by omega
    exact List.count_pos_iff.mp this
  have hafter : ':' ∉ afterFirstColon s := by
    have := count_afterFirstColon s hmem
    rw [h1] at this
    have hz : (afterFirstColon s).count ':' = 0 := by omega
    exact List.count_eq_zero.mp hz
  rw [valueOf, splitColon_getD_one s hmem, takeWhile_colon_free _ hafter]

/-- `applySegs` preserves the slot count. -/
theorem applySegs_length (segs : List Str) :
    ∀ (i : Nat) (slots : List Str),
      (applySegs slots i segs).length = slots.length := by
  induction segs with
  | nil => intro i slots; rfl
  | cons seg rest ih =>
    intro i slots
    rcases hsp : splitOnChar ':' seg with - | ⟨a, - | ⟨v, t⟩⟩ <;>
      simp [applySegs, hsp, ih, List.length_set]

/-- Slots below the write cursor are untouched by `applySegs`. -/
theorem applySegs_get_lt (segs : List Str) :
    ∀ (i : Nat) (slots : List Str) (j : Nat), j < i →
      (applySegs slots i segs)[j]? = slots[j]? := by
  induction segs with
  | nil => intro i slots j _; rfl
  | cons seg rest ih =>
    intro i slots j hj
    rcases hsp : splitOnChar ':' seg with - | ⟨a, - | ⟨v, t⟩⟩
    · simp only [applySegs, hsp]
      exact ih (i + 1) slots j (by omega)
    · simp only [applySegs, hsp]
      exact ih (i + 1) slots j (by omega)
    · simp only [applySegs, hsp]
      rw [ih (i + 1) (slots.set i v) j (by omega),
        List.getElem?_set_ne (by omega)]

/-- The slot of an in-range writing segment holds that segment's value. -/
theorem applySegs_get_write (segs : List Str) :
    ∀ (i : Nat) (slots : List Str) (k : Nat) (s : Str),
      segs[k]? = some s → writesSlot s →
      (∀ m t, segs[m]? = some t → writesSlot t → i + m < slots.length) →
      (applySegs slots i segs)[i + k]? = some (valueOf s) := by
  induction segs with
  | nil => intro i slots k s hk _ _; simp at hk
  | cons seg rest ih =>
    intro i slots k s hk hw hin
    rcases hsp : splitOnChar ':' seg with - | ⟨a, - | ⟨v, t⟩⟩
    · cases k with
      | zero =>
        simp only [List.getElem?_cons_zero, Option.some.injEq] at hk
        subst hk
        simp [writesSlot, hsp] at hw
      | succ k =>
        simp only [applySegs, hsp]
        have heq : i + (k + 1) = (i + 1) + k := by omega
        rw [heq]
        exact ih (i + 1) slots k s (by simpa using hk) hw
          (fun m t hm hw2 => by
            have := hin (m + 1) t (by simpa using hm) hw2
            omega)
    · cases k with
      | zero =>
        simp only [List.getElem?_cons_zero, Option.some.injEq] at hk
        subst hk
        simp [writesSlot, hsp] at hw
      | succ k =>
        simp only [applySegs, hsp]
        have heq : i + (k + 1) = (i + 1) + k := by omega
        rw [heq]
        exact ih (i + 1) slots k s (by simpa using hk) hw
          (fun m t hm hw2 => by
            have := hin (m + 1) t (by simpa using hm) hw2
            omega)
    · cases k with
      | zero =>
        simp only [List.getElem?_cons_zero, Option.some.injEq] at hk
        subst hk
        have hi : i < slots.length := by
          have := hin 0 seg (by simp) (by simp [writesSlot, hsp])
          omega
        simp only [applySegs, hsp, Nat.add_zero]
        rw [applySegs_get_lt rest (i + 1) (slots.set i v) i (by omega),
          List.getElem?_set_eq_of_lt v hi]
        simp [valueOf, hsp]
      | succ k =>
        simp only [applySegs, hsp]
        have heq : i + (k + 1) = (i + 1) + k := by omega
        rw [heq]
        exact ih (i + 1) (slots.set i v) k s (by simpa using hk) hw
          (fun m t hm hw2 => by
            have := hin (m + 1) t (by simpa using hm) hw2
            simp only [List.length_set]
            omega)

/-- The slot of a non-writing segment is untouched. -/
theorem applySegs_get_nowrite (segs : List Str) :
    ∀ (i : Nat) (slots : List Str) (k : Nat) (s : Str),
      segs[k]? = some s → ¬writesSlot s →
      (applySegs slots i segs)[i + k]? = slots[i + k]? := by
  induction segs with
  | nil => intro i slots k s hk _; simp at hk
  | cons seg rest ih =>
    intro i slots k s hk hw
    rcases hsp : splitOnChar ':' seg with - | ⟨a, - | ⟨v, t⟩⟩
    · cases k with
      | zero =>
        simp only [applySegs, hsp, Nat.add_zero]
        exact applySegs_get_lt rest (i + 1) slots i (by omega)
      | succ k =>
        simp only [applySegs, hsp]
        have heq : i + (k + 1) = (i + 1) + k := by omega
        rw [heq]
        exact ih (i + 1) slots k s (by simpa using hk) hw
    · cases k with
      | zero =>
        simp only [applySegs, hsp, Nat.add_zero]
        exact applySegs_get_lt rest (i + 1) slots i (by omega)
      | succ k =>
        simp only [applySegs, hsp]
        have heq : i + (k + 1) = (i + 1) + k := by omega
        rw [heq]
        exact ih (i + 1) slots k s (by simpa using hk) hw
    · cases k with
      | zero =>
        simp only [List.getElem?_cons_zero, Option.some.injEq] at hk
        subst hk
        simp [writesSlot, hsp] at hw
      | succ k =>
        simp only [applySegs, hsp]
        have heq : i + (k + 1) = (i + 1) + k := by omega
        rw [heq, ih (i + 1) (slots.set i v) k s (by simpa using hk) hw,
          List.getElem?_set_ne (by omega)]

/-- Slots past the cursor plus the segment count are untouched. -/
theorem applySegs_get_beyond (segs : List Str) :
    ∀ (i : Nat) (slots : List Str) (j : Nat), i + segs.length ≤ j →
      (applySegs slots i segs)[j]? = slots[j]? := by
  induction segs with
  | nil => intro i slots j _; rfl
  | cons seg rest ih =>
    intro i slots j hj
    simp only [List.length_cons] at hj
    rcases hsp : splitOnChar ':' seg with - | ⟨a, - | ⟨v, t⟩⟩
    · simp only [applySegs, hsp]
      exact ih (i + 1) slots j (by omega)
    · simp only [applySegs, hsp]
      exact ih (i + 1) slots j (by omega)
    · simp only [applySegs, hsp]
      rw [ih (i + 1) (slots.set i v) j (by omega),
        List.getElem?_set_ne (by omega)]

/-- When every writing segment lands in range, the Python parsing loop
cannot raise and computes `applySegs`. -/
theorem notifLoop_eq_applySegs (segs : List Str) :
    ∀ (i : Nat) (slots : List Str),
      (∀ k s, segs[k]? = some s → writesSlot s → i + k < slots.length) →
      notifLoop slots i segs = some (applySegs slots i segs) := by
  induction segs with
  | nil => intro i slots _; rfl
  | cons seg rest ih =>
    intro i slots h
    rcases hsp : splitOnChar ':' seg with - | ⟨a, - | ⟨v, t⟩⟩
    · simp only [notifLoop, applySegs, hsp]
      exact ih (i + 1) slots (fun k s hk hw => by
        have := h (k + 1) s (by simpa using hk) hw
        omega)
    · simp only [notifLoop, applySegs, hsp]
      exact ih (i + 1) slots (fun k s hk hw => by
        have := h (k + 1) s (by simpa using hk) hw
        omega)
    · have hi : i < slots.length := by
        have := h 0 seg (by simp) (by simp [writesSlot, hsp])
        omega
      simp only [notifLoop, applySegs, hsp, listSet_eq, if_pos hi]
      exact ih (i + 1) (slots.set i v) (fun k s hk hw => by
        have := h (k + 1) s (by simpa using hk) hw
        simp only [List.length_set]
        omega)

/-- A writing segment whose slot index is out of range makes the Python
parsing loop raise `IndexError`. -/
theorem notifLoop_none_of_overflow (segs : List Str) :
    ∀ (i : Nat) (slots : List Str) (k : Nat) (s : Str),
      segs[k]? = some s → writesSlot s → slots.length ≤ i + k →
      notifLoop slots i segs = none := by
  induction segs with
  | nil => intro i slots k s hk _ _; simp at hk
  | cons seg rest ih =>
    intro i slots k s hk hw hlen
    rcases hsp : splitOnChar ':' seg with - | ⟨a, - | ⟨v, t⟩⟩
    · cases k with
      | zero =>
        simp only [List.getElem?_cons_zero, Option.some.injEq] at hk
        subst hk
        simp [writesSlot, hsp] at hw
      | succ k =>
        simp only [notifLoop, hsp]
        exact ih (i + 1) slots k s (by simpa using hk) hw (by omega)
    · cases k with
      | zero =>
        simp only [List.getElem?_cons_zero, Option.some.injEq] at hk
        subst hk
        simp [writesSlot, hsp] at hw
      | succ k =>
        simp only [notifLoop, hsp]
        exact ih (i + 1) slots k s (by simpa using hk) hw (by omega)
    · by_cases hi : i < slots.length
      · cases k with
        | zero => omega
        | succ k =>
          simp only [notifLoop, hsp, listSet_eq, if_pos hi]
          exact ih (i + 1) (slots.set i v) k s (by simpa using hk) hw
            (by simp only [List.length_set]; omega)
      · simp only [notifLoop, hsp, listSet_eq, if_neg hi]

/-- On a payload whose writing segments all land below slot 50, the code
loop computes exactly the spec's sparse record. -/
theorem notifLoop_record (segs : List Str)
    (hin : ∀ k s, segs[k]? = some s → writesSlot s → k < 50) :
    notifLoop (List.replicate 50 defaultSlot) 0 segs =
      some (notificationSpec segs) := by
  have hlen : (List.replicate 50 defaultSlot).length = 50 := by simp
  have hin0 : ∀ k s, segs[k]? = some s → writesSlot s →
      0 + k < (List.replicate 50 defaultSlot).length := by
    intro k s hk hw
    have := hin k s hk hw
    omega
  rw [notifLoop_eq_applySegs segs 0 _ hin0]
  congr 1
  apply List.ext_get?_iff.mpr
  intro j
  rw [List.get?_eq_getElem? _ j, List.get?_eq_getElem? _ j]
  have hspec : (notificationSpec segs)[j]? =
      if j < 50 then
        some (match segs.get? j with
          | some seg =>
            match splitOnChar ':' seg with
            | _ :: v :: _ => v
            | _ => defaultSlot
          | none => defaultSlot)
      else none := by
    simp only [notificationSpec, List.getElem?_map, List.getElem?_range]
    by_cases hj : j < 50
    · simp [hj]
    · simp [hj]
      omega
  by_cases hj : j < 50
  · cases hk : segs[j]? with
    | none =>
      have hbeyond : segs.length ≤ j := List.getElem?_eq_none_iff.mp hk
      rw [applySegs_get_beyond segs 0 _ j (by omega), hspec, if_pos hj,
        List.get?_eq_getElem? segs j, hk, List.getElem?_replicate, if_pos hj]
    | some s =>
      by_cases hw : writesSlot s
      · have h1 := applySegs_get_write segs 0 (List.replicate 50 defaultSlot)
          j s hk hw hin0
        rw [Nat.zero_add] at h1
        rw [h1, hspec, if_pos hj, List.get?_eq_getElem? segs j, hk]
        rcases hsp : splitOnChar ':' s with - | ⟨a, - | ⟨v, t⟩⟩
        · simp [writesSlot, hsp] at hw
        · simp [writesSlot, hsp] at hw
        · simp [valueOf, hsp]
      · have h1 := applySegs_get_nowrite segs 0 (List.replicate 50 defaultSlot)
          j s hk hw
        rw [Nat.zero_add] at h1
        rw [h1, hspec, if_pos hj, List.get?_eq_getElem? segs j, hk,
          List.getElem?_replicate, if_pos hj]
        rcases hsp : splitOnChar ':' s with - | ⟨a, - | ⟨v, t⟩⟩
        · simp [hsp]
        · simp [hsp]
        · simp [writesSlot, hsp] at hw
  · rw [hspec, if_neg hj]
    have hge : (applySegs (List.replicate 50 defaultSlot) 0 segs).length ≤ j := by
      rw [applySegs_length]
      simp only [List.length_replicate]
      omega
    exact List.getElem?_eq_none hge

/-- A hex digit is never ASCII whitespace. -/
theorem not_asciiSpace_of_hexDigit (c : Char) (h : hexDigit c = true) :
    asciiSpace c = false := by
  cases hs : asciiSpace c with
  | false => rfl
  | true =>
    simp only [asciiSpace, Bool.or_eq_true, beq_iff_eq] at hs
    rcases hs with ((((rfl | rfl) | rfl) | rfl) | rfl) | rfl <;>
      exact absurd h (by decide)

/-- On all-hex input, `fromhex` succeeds with the byte pairs exactly
when the digit count is even (fuel-indexed two-step induction). -/
theorem fromhex_all_hex (n : Nat) :
    ∀ s : Str, s.length ≤ n → (∀ c ∈ s, hexDigit c) →
      (s.length % 2 = 0 → fromhex s = some (pairBytes s)) ∧
      (s.length % 2 = 1 → fromhex s = none) := by
  induction n with
  | zero =>
    intro s hlen _
    have hnil : s = [] := List.length_eq_zero.mp (Nat.le_zero.mp hlen)
    subst hnil
    exact ⟨fun _ => rfl, fun h => by simp at h⟩
  | succ n ih =>
    intro s hlen hhex
    match s with
    | [] => exact ⟨fun _ => rfl, fun h => by simp at h⟩
    | [c] =>
      have hc : hexDigit c := hhex c (by simp)
      have hcs : asciiSpace c = false := not_asciiSpace_of_hexDigit c hc
      obtain ⟨h1, hv⟩ := Option.isSome_iff_exists.mp hc
      refine ⟨fun h => by simp at h, fun _ => ?_⟩
      simp [fromhex, hcs, hv]
    | c1 :: c2 :: rest =>
      have hc1 : hexDigit c1 := hhex c1 (by simp)
      have hc2 : hexDigit c2 := hhex c2 (by simp)
      have hcs : asciiSpace c1 = false := not_asciiSpace_of_hexDigit c1 hc1
      obtain ⟨h1, hv1⟩ := Option.isSome_iff_exists.mp hc1
      obtain ⟨h2, hv2⟩ := Option.isSome_iff_exists.mp hc2
      have hlen2 : rest.length ≤ n := by
        simp only [List.length_cons] at hlen
        omega
      have hhex2 : ∀ c ∈ rest, hexDigit c := fun c hcm => hhex c (by simp [hcm])
      have hrec := ih rest hlen2 hhex2
      constructor
      · intro he
        have he2 : rest.length % 2 = 0 := by
          simp only [List.length_cons] at he
          omega
        simp [fromhex, hcs, hv1, hv2, hrec.1 he2, pairBytes]
      · intro ho
        have ho2 : rest.length % 2 = 1 := by
          simp only [List.length_cons] at ho
          omega
        simp [fromhex, hcs, hv1, hv2, hrec.2 ho2]

/-- `fromhex` skips leading ASCII whitespace. -/
theorem fromhex_cons_whitespace (w : Char) (s : Str)
    (hw : asciiSpace w = true) : fromhex (w :: s) = fromhex s := by
  rw [fromhex.eq_def]
  simp [hw]

/-- A character that is neither a hex digit nor ASCII whitespace
anywhere in the input makes `fromhex` fail (fuel-indexed). -/
theorem fromhex_bad_char_fuel (n : Nat) :
    ∀ s : Str, s.length ≤ n →
      (∃ c ∈ s, ¬hexDigit c ∧ asciiSpace c = false) → fromhex s = none := by
  induction n with
  | zero =>
    intro s hlen h
    have hnil : s = [] := List.length_eq_zero.mp (Nat.le_zero.mp hlen)
    subst hnil
    rcases h with ⟨c, hc, -, -⟩
    simp at hc
  | succ n ih =>
    intro s hlen h
    match s with
    | [] =>
      rcases h with ⟨c, hc, -, -⟩
      simp at hc
    | c0 :: rest =>
      rcases h with ⟨c, hc, hbad, hsp⟩
      simp only [List.length_cons] at hlen
      by_cases h0 : asciiSpace c0 = true
      · rw [fromhex_cons_whitespace c0 rest h0]
        have hcr : c ∈ rest := by
          rcases List.mem_cons.mp hc with rfl | hm
          · exact absurd h0 (by simp [hsp])
          · exact hm
        exact ih rest (by omega) ⟨c, hcr, hbad, hsp⟩
      · cases hv0 : hexVal c0 with
        | none => simp [fromhex, h0, hv0]
        | some h1 =>
          cases rest with
          | nil =>
            rcases List.mem_cons.mp hc with rfl | hm
            · exact absurd (by simp [hexDigit, hv0]) hbad
            · simp at hm
          | cons c2 rest2 =>
            cases hv2 : hexVal c2 with
            | none => simp [fromhex, h0, hv0, hv2]
            | some h2 =>
              have hcr : c ∈ rest2 := by
                rcases List.mem_cons.mp hc with rfl | hm
                · exact absurd (by simp [hexDigit, hv0]) hbad
                · rcases List.mem_cons.mp hm with rfl | h2m
                  · exact absurd (by simp [hexDigit, hv2]) hbad
                  · exact h2m
              have hlen2 : rest2.length ≤ n := by
                simp only [List.length_cons] at hlen
                omega
              simp [fromhex, h0, hv0, hv2,
                ih rest2 hlen2 ⟨c, hcr, hbad, hsp⟩]

/-- A character that is neither a hex digit nor ASCII whitespace
anywhere in the input makes `fromhex` fail. -/
theorem fromhex_bad_char (s : Str)
    (h : ∃ c ∈ s, ¬hexDigit c ∧ asciiSpace c = false) : fromhex s = none :=
  fromhex_bad_char_fuel s.length s le_rfl h

/-! ## Correspondence between the two program variants -/

/-- The per-segment parsers of the two files are the same function (the
source lines are verbatim identical). -/
theorem gui_parseSegment_eq (s : Str) :
    Gui.parseSegment s = Main.parseSegment s := by
  unfold Gui.parseSegment Main.parseSegment
  rfl

/-- The per-segment loops of the two files are the same function. -/
theorem gui_parseSegments_eq (segs : List Str) :
    Gui.parseSegments segs = Main.parseSegments segs := by
  induction segs with
  | nil => rfl
  | cons s rest ih =>
    simp only [Gui.parseSegments, Main.parseSegments, gui_parseSegment_eq, ih]

/-- The telemetry decoders of the two files are the same function. -/
theorem gui_decodeTelemetry_eq (raw : Str) :
    Gui.decodeTelemetry raw = Main.decodeTelemetry raw := by
  unfold Gui.decodeTelemetry Main.decodeTelemetry
  simp only [gui_parseSegments_eq]

/-- The notification decoders of the two files are the same function. -/
theorem gui_decodeNotification_eq (raw : Str) :
    Gui.decodeNotification raw = Main.decodeNotification raw := by
  unfold Gui.decodeNotification Main.decodeNotification
  rfl

/-- Both scans return the same address (they differ only in logging). -/
theorem scan_fst_eq (name : Str) (env : Env) :
    (Main.scan_devices name env).1 = (Gui.scan_devices name env).1 := by
  cases hs : env.scanResult with
  | none => simp [Main.scan_devices, Gui.scan_devices, hs]
  | some devs =>
    cases hf : devs.find? (fun d => d.name == name) <;>
      simp [Main.scan_devices, Gui.scan_devices, hs, hf]

/-- Both reads return the same telemetry (they differ only in logging
and in the connection options used). -/
theorem read_fst_eq (env : Env) :
    (Main.read_characteristic env).1 = (Gui.read_characteristic env).1 := by
  by_cases h1 : env.svcPresent
  · by_cases h2 : env.charPresent
    · by_cases h3 : env.charReadable
      · cases hrv : env.readValue with
        | none =>
          simp [Main.read_characteristic, Gui.read_characteristic, h1, h2, h3, hrv]
        | some bytes =>
          cases ha : asciiDecode bytes with
          | none =>
            simp [Main.read_characteristic, Gui.read_characteristic,
              h1, h2, h3, hrv, ha]
          | some raw =>
            cases hd : Main.decodeTelemetry raw with
            | ok vals =>
              simp [Main.read_characteristic, Gui.read_characteristic,
                h1, h2, h3, hrv, ha, hd, gui_decodeTelemetry_eq]
            | error e =>
              cases e <;>
                simp [Main.read_characteristic, Gui.read_characteristic,
                  h1, h2, h3, hrv, ha, hd, gui_decodeTelemetry_eq]
      · simp [Main.read_characteristic, Gui.read_characteristic, h1, h2, h3]
    · simp [Main.read_characteristic, Gui.read_characteristic, h1, h2]
  · simp [Main.read_characteristic, Gui.read_characteristic, h1]

/-- Both exchange calls return the same command value for every
response (the `429` branch differs only in logging). -/
theorem get_data_fst_eq (env : Env) :
    (Main.get_data env).1 = (Gui.get_data env).1 := by
  unfold Main.get_data Gui.get_data
  cases env.getResp with
  | none => rfl
  | some r =>
    by_cases h403 : r.status = 403
    · simp [h403]
    · by_cases h429 : r.status = 429
      · have h200 : ¬r.status = 200 := by omega
        simp [h403, h429, h200]
      · by_cases h200 : r.status = 200 <;> simp [h403, h429, h200]

/-- Same for the initialization exchange. -/
theorem init_data_fst_eq (env : Env) :
    (Main.init_data env).1 = (Gui.init_data env).1 := by
  unfold Main.init_data Gui.init_data
  cases env.initResp with
  | none => rfl
  | some r =>
    by_cases h403 : r.status = 403
    · simp [h403]
    · by_cases h429 : r.status = 429
      · have h200 : ¬r.status = 200 := by omega
        simp [h403, h429, h200]
      · by_cases h200 : r.status = 200 <;> simp [h403, h429, h200]

/-- Both write sessions produce the same outcome. -/
theorem connect_write_fst_eq (d : Str) (env : Env) :
    (Main.connect_and_write d env).1 = (Gui.connect_and_write d env).1 := by
  unfold Main.connect_and_write Gui.connect_and_write
  cases fromhex d with
  | none => rfl
  | some bytes => cases env.writeOk <;> rfl

/-- The shared run tail agrees on the terminal flag and on the bytes
written, for any logs accumulated so far. -/
theorem writePhase_agree (res : Option Str) (env : Env) (l1 l2 : List Log) :
    (Main.writePhase res env l1).success = (Gui.writePhase res env l2).success ∧
    (Main.writePhase res env l1).writes = (Gui.writePhase res env l2).writes := by
  unfold Main.writePhase Gui.writePhase
  cases res with
  | none => exact ⟨rfl, rfl⟩
  | some txt =>
    by_cases htxt : txt = []
    · simp [htxt]
    · simp only [if_neg htxt]
      have hcw := connect_write_fst_eq txt env
      cases hm : Main.connect_and_write txt env with
      | mk wres wlogs =>
        cases hg : Gui.connect_and_write txt env with
        | mk gres glogs =>
          rw [hm, hg] at hcw
          simp only at hcw
          subst hcw
          cases wres <;> exact ⟨rfl, rfl⟩

/-- The two runs agree on the success flag and the bytes written,
pointwise over every environment. -/
theorem run_agree (mode : Mode) (name : Str) (env : Env) :
    (Main.run mode name env).success = (Gui.run mode name env).success ∧
    (Main.run mode name env).writes = (Gui.run mode name env).writes := by
  unfold Main.run Gui.run
  have hscan := scan_fst_eq name env
  cases hm : Main.scan_devices name env with
  | mk mres mlogs =>
    cases hg : Gui.scan_devices name env with
    | mk gres glogs =>
      rw [hm, hg] at hscan
      simp only at hscan
      subst hscan
      cases mres with
      | none => exact ⟨rfl, rfl⟩
      | some addr =>
        cases mode with
        | restore =>
          have hread := read_fst_eq env
          cases hmr : Main.read_characteristic env with
          | mk mrres mrlogs =>
            cases hgr : Gui.read_characteristic env with
            | mk grres grlogs =>
              rw [hmr, hgr] at hread
              simp only at hread
              subst hread
              cases mrres with
              | none => exact ⟨rfl, rfl⟩
              | some pair =>
                have hdata := get_data_fst_eq env
                cases hmd : Main.get_data env with
                | mk mdres mdlogs =>
                  cases hgd : Gui.get_data env with
                  | mk gdres gdlogs =>
                    rw [hmd, hgd] at hdata
                    simp only at hdata
                    subst hdata
                    exact writePhase_agree mdres env _ _
        | initMode =>
          have hdata := init_data_fst_eq env
          cases hmd : Main.init_data env with
          | mk mdres mdlogs =>
            cases hgd : Gui.init_data env with
            | mk gdres gdlogs =>
              rw [hmd, hgd] at hdata
              simp only at hdata
              subst hdata
              exact writePhase_agree mdres env _ _

/-- Any list of at most 50 segments writes only below slot 50. -/
theorem writes_bounded_of_short (segs : List Str) (h : segs.length ≤ 50) :
    ∀ k s, segs[k]? = some s → writesSlot s → k < 50 := by
  intro k s hk _
  by_contra hge
  rw [List.getElem?_eq_none (by omega)] at hk
  cases hk

/-! ## Claim theorems -/

/-- Claim C1: `decodeTelemetry` matches its reference definition: for every
raw text, splitting on `,` must yield exactly 13 segments (otherwise
`FieldCountError`) and each segment must split into exactly two parts
on `:` (otherwise `FieldFormatError`); on success exactly the 13 value
parts are returned in segment order with the keys discarded; on any
failure only an error is returned, so no partial record exists. -/
theorem c1_decodeTelemetry_matches_reference (raw : Str) :
    ((splitOnChar ',' raw).length ≠ 13 →
      Main.decodeTelemetry raw = .error .FieldCountError) ∧
    ((splitOnChar ',' raw).length = 13 →
      ((∀ s ∈ splitOnChar ',' raw, (splitOnChar ':' s).length = 2) →
        Main.decodeTelemetry raw = .ok ((splitOnChar ',' raw).map valueOf)) ∧
      ((∃ s ∈ splitOnChar ',' raw, (splitOnChar ':' s).length ≠ 2) →
        Main.decodeTelemetry raw = .error .FieldFormatError)) := by
  refine ⟨fun hne => ?_, fun h13 => ⟨fun hall => ?_, fun hex => ?_⟩⟩
  · simp [Main.decodeTelemetry, hne]
  · simp [Main.decodeTelemetry, h13, parseSegments_ok _ hall]
  · simp [Main.decodeTelemetry, h13, parseSegments_none _ hex]

/-- Witness for C1 at a concrete 13-field record. -/
theorem c1_witness :
    Main.decodeTelemetry
        "a:0,b:1,c:2,d:3,e:4,f:5,g:6,h:7,i:8,j:9,k:10,l:11,m:12".toList =
      .ok ((splitOnChar ','
        "a:0,b:1,c:2,d:3,e:4,f:5,g:6,h:7,i:8,j:9,k:10,l:11,m:12".toList).map
        valueOf) :=
  ((c1_decodeTelemetry_matches_reference _).2 (by decide)).1 (by decide)

/-- Claim C3, counterexample: A raw text with exactly 13 comma-separated
segments, each containing at least one colon, whose last segment is
`"m:1:2"`: the claim says decoding succeeds with value `"1:2"` for that
segment, but the code splits on every colon, sees three parts, and
fails with `FieldFormatError`. -/
theorem c3_counterexample :
    ((splitOnChar ','
        "a:0,b:1,c:2,d:3,e:4,f:5,g:6,h:7,i:8,j:9,k:10,l:11,m:1:2".toList).length
      = 13 ∧
     (splitOnChar ','
        "a:0,b:1,c:2,d:3,e:4,f:5,g:6,h:7,i:8,j:9,k:10,l:11,m:1:2".toList).all
        (fun s => s.contains ':') = true) ∧
    Main.decodeTelemetry
        "a:0,b:1,c:2,d:3,e:4,f:5,g:6,h:7,i:8,j:9,k:10,l:11,m:1:2".toList =
      .error .FieldFormatError :=
  ⟨⟨by decide, by decide⟩, rfl⟩

/-- Claim C3, amended: `decodeTelemetry` splits each segment on every
colon, not on the first: for a raw text with exactly 13 segments in
which every segment contains exactly one colon, decoding succeeds and
each value is the whole text after that segment's colon; any segment
containing two or more colons (a value with a colon inside) makes
decoding fail with `FieldFormatError`. -/
theorem c3_telemetry_single_colon (raw : Str)
    (h13 : (splitOnChar ',' raw).length = 13) :
    ((∀ s ∈ splitOnChar ',' raw, s.count ':' = 1) →
      Main.decodeTelemetry raw = .ok ((splitOnChar ',' raw).map valueOf) ∧
      ∀ s ∈ splitOnChar ',' raw, valueOf s = afterFirstColon s) ∧
    (∀ s ∈ splitOnChar ',' raw, 2 ≤ s.count ':' →
      Main.decodeTelemetry raw = .error .FieldFormatError) := by
  constructor
  · intro h1
    have hall : ∀ s ∈ splitOnChar ',' raw, (splitOnChar ':' s).length = 2 := by
      intro s hs
      rw [splitOnChar_length, h1 s hs]
    constructor
    · simp [Main.decodeTelemetry, h13, parseSegments_ok _ hall]
    · intro s hs
      exact valueOf_single_colon s (h1 s hs)
  · intro s hs h2
    have hne : (splitOnChar ':' s).length ≠ 2 := by
      rw [splitOnChar_length]
      omega
    simp [Main.decodeTelemetry, h13, parseSegments_none _ ⟨s, hs, hne⟩]

/-- Witness for the amended C3 at a concrete single-colon record. -/
theorem c3_witness :
    Main.decodeTelemetry
        "k1:v1,k2:v2,k3:v3,k4:v4,k5:v5,k6:v6,k7:v7,k8:v8,k9:v9,kA:vA,kB:vB,kC:vC,kD:vD".toList =
      .ok ((splitOnChar ','
        "k1:v1,k2:v2,k3:v3,k4:v4,k5:v5,k6:v6,k7:v7,k8:v8,k9:v9,kA:vA,kB:vB,kC:vC,kD:vD".toList).map
        valueOf) :=
  (((c3_telemetry_single_colon _ (by decide)).1 (by decide))).1

/-- The spec-side record read back at one index. -/
theorem notificationSpec_get (segs : List Str) (i : Nat) (hi : i < 50) :
    (notificationSpec segs)[i]? =
      some (match segs.get? i with
        | some seg =>
          match splitOnChar ':' seg with
          | _ :: v :: _ => v
          | _ => defaultSlot
        | none => defaultSlot) := by
  simp only [notificationSpec, List.getElem?_map, List.getElem?_range]
  simp [hi]

/-- Claim C10: For every notification segment containing two or more
colons, the stored slot value is exactly the text between the first and
the second colon — everything from the second colon on is silently
discarded — while the telemetry decoder rejects any 13-segment record
containing such a segment outright. -/
theorem c10_multicolon_segment (segs : List Str) (i : Nat) (s : Str)
    (hget : segs[i]? = some s) (h2 : 2 ≤ s.count ':') (hi : i < 50) :
    (notificationSpec segs)[i]? =
      some ((afterFirstColon s).takeWhile (· != ':')) ∧
    ∀ raw : Str, s ∈ splitOnChar ',' raw →
      (splitOnChar ',' raw).length = 13 →
      Main.decodeTelemetry raw = .error .FieldFormatError := by
  constructor
  · have hmem : ':' ∈ s := List.count_pos_iff.mp (by omega)
    have hlen : 3 ≤ (splitOnChar ':' s).length := by
      rw [splitOnChar_length]
      omega
    rcases hsp : splitOnChar ':' s with - | ⟨a, - | ⟨v, t⟩⟩
    · rw [hsp] at hlen
      simp at hlen
    · rw [hsp] at hlen
      simp at hlen
    · have hval : v = (afterFirstColon s).takeWhile (· != ':') := by
        have h := splitColon_getD_one s hmem
        rw [hsp] at h
        simpa using h
      rw [notificationSpec_get segs i hi, List.get?_eq_getElem? segs i, hget]
      simp [hsp, hval]
  · intro raw hmemraw h13
    have hne : (splitOnChar ':' s).length ≠ 2 := by
      rw [splitOnChar_length]
      omega
    simp [Main.decodeTelemetry, h13, parseSegments_none _ ⟨s, hmemraw, hne⟩]

/-- Witness for C10: segment `"V2:1.4.0:beta"` stores `"1.4.0"`. -/
theorem c10_witness :
    (notificationSpec
        ["a:1".toList, "b:2".toList, "V2:1.4.0:beta".toList])[2]? =
      some "1.4.0".toList := by
  have h := c10_multicolon_segment
      ["a:1".toList, "b:2".toList, "V2:1.4.0:beta".toList] 2
      "V2:1.4.0:beta".toList (by decide) (by decide) (by decide)
  exact h.1.trans (by decide)

set_option maxRecDepth 8000 in
/-- Claim C2, counterexample: A 203-character payload of 51 `"k:v"`
segments: the claim says the decoder bounds its writes to the first 50
segments and fails closed with a truncated record, but the code attempts
the assignment at index 50, raises `IndexError`, and produces no record
at all. -/
theorem c2_counterexample :
    Main.decodeNotification
        (List.intercalate [','] (List.replicate 51 ['k', ':', 'v'])) =
      .fail ∧
    NotifDecode.fail ≠
      .record (notificationSpec ((splitOnChar ','
        (List.intercalate [','] (List.replicate 51 ['k', ':', 'v']))).take 50)) :=
  ⟨rfl, by simp⟩

/-- Claim C2, amended: The fixed 50-slot array is never actually written at
an index of 50 or greater: when every colon-containing segment sits at
an index below 50 the decode succeeds with the 50-slot record (extra
colon-free segments beyond index 49 are merely ignored), and a
colon-containing segment at index 50 or greater makes the whole decode
fail with `IndexError` — fail closed by erroring, not by truncating. -/
theorem c2_no_out_of_bounds_write (raw : Str) (hlen : 40 < raw.length) :
    ((∀ k s, (splitOnChar ',' raw)[k]? = some s → writesSlot s → k < 50) →
      Main.decodeNotification raw =
        .record (notificationSpec (splitOnChar ',' raw)) ∧
      (notificationSpec (splitOnChar ',' raw)).length = 50) ∧
    (∀ k s, (splitOnChar ',' raw)[k]? = some s → writesSlot s → 50 ≤ k →
      Main.decodeNotification raw = .fail) := by
  constructor
  · intro hin
    constructor
    · unfold Main.decodeNotification
      rw [if_pos hlen, notifLoop_record _ hin]
    · simp [notificationSpec]
  · intro k s hk hw hk50
    unfold Main.decodeNotification
    rw [if_pos hlen,
      notifLoop_none_of_overflow _ 0 _ k s hk hw (by simpa using hk50)]

/-- Witness for the amended C2 at a concrete in-bounds payload. -/
theorem c2_witness :
    Main.decodeNotification
        "q,q,q,q,q,q,q,q,q,q,q,q,q,q,q,q,q,q,V2:1.4.0".toList =
      .record (notificationSpec (splitOnChar ','
        "q,q,q,q,q,q,q,q,q,q,q,q,q,q,q,q,q,q,V2:1.4.0".toList)) :=
  (((c2_no_out_of_bounds_write _ (by decide)).1
    (writes_bounded_of_short _ (by decide)))).1

/-- Claim C6: `decodeNotification` matches its reference definition on
bounded inputs: a payload of at most 40 characters is skipped whatever
its content, and a longer payload with at most 50 comma segments
decodes to the 50-slot array in which exactly the colon-containing
segments' indices hold that segment's value and every other slot holds
the ten-character `"0000000000"` default. -/
theorem c6_decodeNotification_matches_reference (raw : Str) :
    (raw.length ≤ 40 → Main.decodeNotification raw = .skip) ∧
    (40 < raw.length → (splitOnChar ',' raw).length ≤ 50 →
      Main.decodeNotification raw =
        .record (notificationSpec (splitOnChar ',' raw))) := by
  constructor
  · intro hle
    unfold Main.decodeNotification
    rw [if_neg (by omega)]
  · intro hgt hseg
    unfold Main.decodeNotification
    rw [if_pos hgt, notifLoop_record _ (writes_bounded_of_short _ hseg)]

/-- Witness for C6: a short payload is skipped; the 44-character sample
with segment 18 `"V2:1.4.0"` yields slot 18 `"1.4.0"` and slot 0 at the
default. -/
theorem c6_witness :
    Main.decodeNotification "a:1,b:2".toList = .skip ∧
    Main.decodeNotification
        "q,q,q,q,q,q,q,q,q,q,q,q,q,q,q,q,q,q,V2:1.4.0".toList =
      .record (notificationSpec (splitOnChar ','
        "q,q,q,q,q,q,q,q,q,q,q,q,q,q,q,q,q,q,V2:1.4.0".toList)) ∧
    (notificationSpec (splitOnChar ','
        "q,q,q,q,q,q,q,q,q,q,q,q,q,q,q,q,q,q,V2:1.4.0".toList))[18]? =
      some "1.4.0".toList ∧
    (notificationSpec (splitOnChar ','
        "q,q,q,q,q,q,q,q,q,q,q,q,q,q,q,q,q,q,V2:1.4.0".toList))[0]? =
      some defaultSlot :=
  ⟨(c6_decodeNotification_matches_reference _).1 (by decide),
   (c6_decodeNotification_matches_reference _).2 (by decide) (by decide),
   by decide, by decide⟩

/-- Claim C7, counterexample: `"0A 1B"` contains a space, which is not a
hexadecimal digit, yet the decode succeeds with `[0x0A, 0x1B]` because
CPython's `bytearray.fromhex` skips spaces between byte pairs; the
claim says any input containing a non-hex character (including
whitespace) fails. -/
theorem c7_counterexample :
    fromhex "0A 1B".toList = some [10, 27] ∧
    ' ' ∈ "0A 1B".toList ∧ hexDigit ' ' = false :=
  ⟨rfl, by decide, by decide⟩

/-- Claim C7, amended: `encodeCommandBytes` is a strict hex decode
except that ASCII whitespace between byte pairs is skipped, as
CPython's `bytearray.fromhex` does from Python 3.7 on (space, tab, line
feed, vertical tab, form feed, carriage return): an all-hex input
succeeds exactly when its digit count is even, returning the encoded
byte pairs; an odd digit count fails; any character that is neither a
hex digit nor ASCII whitespace fails; and leading whitespace is always
skipped. -/
theorem c7_fromhex_strict_up_to_whitespace (s : Str) :
    ((∀ c ∈ s, hexDigit c) → s.length % 2 = 0 →
      fromhex s = some (pairBytes s)) ∧
    ((∀ c ∈ s, hexDigit c) → s.length % 2 = 1 → fromhex s = none) ∧
    ((∃ c ∈ s, ¬hexDigit c ∧ asciiSpace c = false) → fromhex s = none) ∧
    (∀ w, asciiSpace w = true → fromhex (w :: s) = fromhex s) :=
  ⟨fun hh he => (fromhex_all_hex s.length s le_rfl hh).1 he,
   fun hh ho => (fromhex_all_hex s.length s le_rfl hh).2 ho,
   fromhex_bad_char s, fun w hw => fromhex_cons_whitespace w s hw⟩

/-- Witness for the amended C7: the spec's two examples, plus a
tab-separated pair, accepted just as the program accepts it. -/
theorem c7_witness :
    fromhex "0A1B".toList = some [10, 27] ∧ fromhex "0A1".toList = none ∧
    fromhex "0A\t1B".toList = some [10, 27] :=
  ⟨((c7_fromhex_strict_up_to_whitespace "0A1B".toList).1 (by decide)
      (by decide)).trans (by decide),
   (c7_fromhex_strict_up_to_whitespace "0A1".toList).2.1 (by decide)
     (by decide),
   rfl⟩

/-- Claim C4, counterexample: The failed-scan outcomes are collapsed: with
the scanner raising (adapter unavailable) and with a completed but
empty scan (device not in range) the discover result is the same value,
`None`, so the two failures are not distinguished at the result. -/
theorem c4_counterexample :
    (Main.scan_devices "PWR-7734".toList baseEnv).1 = none ∧
    (Main.scan_devices "PWR-7734".toList
        { baseEnv with scanResult := some [] }).1 = none ∧
    (Main.scan_devices "PWR-7734".toList baseEnv).1 =
      (Main.scan_devices "PWR-7734".toList
        { baseEnv with scanResult := some [] }).1 :=
  ⟨rfl, rfl, rfl⟩

/-- Claim C4, amended: `discover` returns the address of the first scanned
device whose advertised name equals the target; both the no-match scan
and the failed scan return the same `None` result — the two failures
are not distinguished at the discover result, only by the log messages
the `xdjkgui.py` variant emits (the `main.py` variant logs nothing). -/
theorem c4_discover_first_match_failures_collapsed (name : Str) (env : Env) :
    (∀ devs, env.scanResult = some devs →
      ((Main.scan_devices name env).1 =
        (devs.find? (fun d => d.name == name)).map BleDevice.address ∧
      ∀ d rest, devs = d :: rest → d.name = name →
        (Main.scan_devices name env).1 = some d.address)) ∧
    (env.scanResult = none →
      (Main.scan_devices name env).1 = none ∧
      (Gui.scan_devices name env).1 = none) ∧
    (Gui.scan_devices name { env with scanResult := none }).2 ≠
      (Gui.scan_devices name { env with scanResult := some [] }).2 := by
  refine ⟨fun devs hdevs => ⟨?_, ?_⟩, fun hnone => ⟨?_, ?_⟩, ?_⟩
  · cases hf : devs.find? (fun d => d.name == name) <;>
      simp [Main.scan_devices, hdevs, hf]
  · intro d rest hcons hname
    subst hcons
    have hf : (d :: rest).find? (fun x => x.name == name) = some d :=
      List.find?_cons_of_pos _ (by simp [hname])
    simp [Main.scan_devices, hdevs, hf]
  · simp [Main.scan_devices, hnone]
  · simp [Gui.scan_devices, hnone]
  · simp [Gui.scan_devices]

/-- Witness for the amended C4 at a concrete two-device scan. -/
theorem c4_witness :
    (Main.scan_devices "PWR-7734".toList
        { baseEnv with scanResult := some [⟨"PWR-7734".toList, "11:22".toList⟩, ⟨"OTHER".toList, "33:44".toList⟩] }).1 =
      some "11:22".toList := by
  have h := (c4_discover_first_match_failures_collapsed "PWR-7734".toList
      { baseEnv with scanResult := some [⟨"PWR-7734".toList, "11:22".toList⟩, ⟨"OTHER".toList, "33:44".toList⟩] }).1
      [⟨"PWR-7734".toList, "11:22".toList⟩, ⟨"OTHER".toList, "33:44".toList⟩]
      rfl
  exact h.2 _ _ rfl (by decide)

/-- Claim C8, counterexample: On a payload whose decode fails (a non-ASCII
byte), the `xdjkgui.py` notification handler logs the failure and then
re-raises it (`raise`, line 336): the error escapes the handler,
contradicting the claim that the handler never propagates it. -/
theorem c8_counterexample :
    (Gui.notification_handler true [200]).raised = true ∧
    (Gui.notification_handler true [200]).logs = [Log.parseError] := by
  exact ⟨rfl, rfl⟩

/-- Claim C8, amended: Both variants log a failed notification decode
identically and neither interrupts the run through its return value,
but only `main.py` swallows the failure: the `main.py` handler never
raises, while the `xdjkgui.py` handler re-raises exactly when it has
logged a failure. -/
theorem c8_notification_failure_handling (uploadOk : Bool) (data : List Nat) :
    (Main.notification_handler uploadOk data).raised = false ∧
    ((Gui.notification_handler uploadOk data).raised = true ↔
      (Gui.notification_handler uploadOk data).logs = [Log.parseError]) ∧
    (Gui.notification_handler uploadOk data).logs =
      (Main.notification_handler uploadOk data).logs ∧
    (Gui.notification_handler uploadOk data).upload =
      (Main.notification_handler uploadOk data).upload := by
  cases ha : asciiDecode data with
  | none => simp [Main.notification_handler, Gui.notification_handler, ha]
  | some raw =>
    cases hd : Main.decodeNotification raw with
    | skip =>
      simp [Main.notification_handler, Gui.notification_handler, ha,
        gui_decodeNotification_eq, hd]
    | fail =>
      simp [Main.notification_handler, Gui.notification_handler, ha,
        gui_decodeNotification_eq, hd]
    | record slots =>
      cases uploadOk <;>
        simp [Main.notification_handler, Gui.notification_handler, ha,
          gui_decodeNotification_eq, hd]

/-- Claim C9, counterexample: The two variants do not establish connections
with the same options: `main.py` constructs its `BleakClient` with the
library defaults, while `xdjkgui.py` passes a 30-second timeout and
disables the WinRT service cache. -/
theorem c9_counterexample : Main.connectOptions ≠ Gui.connectOptions := by
  decide

/-- Claim C9, amended: Over every input environment the two variants
produce the same decoded telemetry, the same exchange outcomes, the
same bytes written and the same success flag; they are not fully
equivalent, differing in the connection options passed to the client
(and in notification-failure handling, settled under C8). -/
theorem c9_variants_agree_except_options (mode : Mode) (name : Str)
    (env : Env) :
    (Main.run mode name env).success = (Gui.run mode name env).success ∧
    (Main.run mode name env).writes = (Gui.run mode name env).writes ∧
    (Main.read_characteristic env).1 = (Gui.read_characteristic env).1 ∧
    (Main.get_data env).1 = (Gui.get_data env).1 ∧
    (Main.init_data env).1 = (Gui.init_data env).1 ∧
    Main.connectOptions ≠ Gui.connectOptions :=
  ⟨(run_agree mode name env).1, (run_agree mode name env).2,
   read_fst_eq env, get_data_fst_eq env, init_data_fst_eq env, by decide⟩

/-- Claim C5: Whenever the exchange response for the selected mode is HTTP
403, the run terminates as a failure and no bytes are ever written to
the characteristic, in both variants; and whenever the pipeline
actually reaches the exchange step (scan succeeded, and in restore mode
the telemetry read succeeded) the run's terminal outcome is the data
failure with the dedicated unauthorized message surfaced in the log
stream. -/
theorem c5_exchange_403_no_write (mode : Mode) (name : Str) (env : Env)
    (r : HttpResponse)
    (hresp : (match mode with
      | .restore => env.getResp
      | .initMode => env.initResp) = some r)
    (h403 : r.status = 403) :
    ((Main.run mode name env).success = false ∧
      (Main.run mode name env).writes = [] ∧
      (Gui.run mode name env).success = false ∧
      (Gui.run mode name env).writes = []) ∧
    ((Main.scan_devices name env).1.isSome →
      (mode = .restore → (Main.read_characteristic env).1.isSome) →
      (Main.run mode name env).message = .dataFailed ∧
      Log.unauthorized ∈ (Main.run mode name env).logs) := by
  have hagree := run_agree mode name env
  have hmain : (Main.run mode name env).success = false ∧
      (Main.run mode name env).writes = [] ∧
      ((Main.scan_devices name env).1.isSome →
        (mode = .restore → (Main.read_characteristic env).1.isSome) →
        (Main.run mode name env).message = .dataFailed ∧
        Log.unauthorized ∈ (Main.run mode name env).logs) := by
    cases mode with
    | restore =>
      simp only at hresp
      have hgd : Main.get_data env = (none, [Log.unauthorized]) := by
        simp [Main.get_data, hresp, h403]
      cases hs : Main.scan_devices name env with
      | mk sres slogs =>
        cases sres with
        | none =>
          refine ⟨by simp [Main.run, hs], by simp [Main.run, hs], ?_⟩
          intro hsome
          simp at hsome
        | some addr =>
          cases hr : Main.read_characteristic env with
          | mk rres rlogs =>
            cases rres with
            | none =>
              refine ⟨by simp [Main.run, hs, hr], by simp [Main.run, hs, hr], ?_⟩
              intro _ hread
              have := hread rfl
              simp at this
            | some pair =>
              refine ⟨by simp [Main.run, hs, hr, hgd, Main.writePhase],
                by simp [Main.run, hs, hr, hgd, Main.writePhase], ?_⟩
              intro _ _
              constructor
              · simp [Main.run, hs, hr, hgd, Main.writePhase]
              · simp [Main.run, hs, hr, hgd, Main.writePhase]
    | initMode =>
      simp only at hresp
      have hgd : Main.init_data env = (none, [Log.unauthorized]) := by
        simp [Main.init_data, hresp, h403]
      cases hs : Main.scan_devices name env with
      | mk sres slogs =>
        cases sres with
        | none =>
          refine ⟨by simp [Main.run, hs], by simp [Main.run, hs], ?_⟩
          intro hsome
          simp at hsome
        | some addr =>
          refine ⟨by simp [Main.run, hs, hgd, Main.writePhase],
            by simp [Main.run, hs, hgd, Main.writePhase], ?_⟩
          intro _ _
          constructor
          · simp [Main.run, hs, hgd, Main.writePhase]
          · simp [Main.run, hs, hgd, Main.writePhase]
  refine ⟨⟨hmain.1, hmain.2.1, ?_, ?_⟩, hmain.2.2⟩
  · rw [← hagree.1]
    exact hmain.1
  · rw [← hagree.2]
    exact hmain.2.1

/-- Witness for C5: a concrete restore run whose exchange answers 403
fails with no write and surfaces the unauthorized message. -/
theorem c5_witness :
    (Main.run .restore "PWR".toList
        { baseEnv with
            scanResult := some [⟨"PWR".toList, "AA".toList⟩],
            readValue := some
              ("a:0,b:1,c:2,d:3,e:4,f:5,g:6,h:7,i:8,j:9,k:10,l:11,m:12".toList.map
                Char.toNat),
            getResp := some ⟨403, []⟩ }).success = false ∧
    (Main.run .restore "PWR".toList
        { baseEnv with
            scanResult := some [⟨"PWR".toList, "AA".toList⟩],
            readValue := some
              ("a:0,b:1,c:2,d:3,e:4,f:5,g:6,h:7,i:8,j:9,k:10,l:11,m:12".toList.map
                Char.toNat),
            getResp := some ⟨403, []⟩ }).writes = [] ∧
    (Main.run .restore "PWR".toList
        { baseEnv with
            scanResult := some [⟨"PWR".toList, "AA".toList⟩],
            readValue := some
              ("a:0,b:1,c:2,d:3,e:4,f:5,g:6,h:7,i:8,j:9,k:10,l:11,m:12".toList.map
                Char.toNat),
            getResp := some ⟨403, []⟩ }).message = .dataFailed ∧
    Log.unauthorized ∈ (Main.run .restore "PWR".toList
        { baseEnv with
            scanResult := some [⟨"PWR".toList, "AA".toList⟩],
            readValue := some
              ("a:0,b:1,c:2,d:3,e:4,f:5,g:6,h:7,i:8,j:9,k:10,l:11,m:12".toList.map
                Char.toNat),
            getResp := some ⟨403, []⟩ }).logs := by
  have h := c5_exchange_403_no_write .restore "PWR".toList
      { baseEnv with
          scanResult := some [⟨"PWR".toList, "AA".toList⟩],
          readValue := some
            ("a:0,b:1,c:2,d:3,e:4,f:5,g:6,h:7,i:8,j:9,k:10,l:11,m:12".toList.map
              Char.toNat),
          getResp := some ⟨403, []⟩ }
      ⟨403, []⟩ rfl rfl
  have h2 := h.2 (by decide) (fun _ => by decide)
  exact ⟨h.1.1, h.1.2.1, h2.1, h2.2⟩
